import Mathlib

/-
  Verification of the browser-automation extraction core of the
  commercial-realestate-crawler repository.

  Shallow embedding: the pure decision logic of the two site extractors
  (`LoopNetScraper._extract_listings`, `CommercialMLSScraper._extract_listings_from_grid`),
  the orchestrator (`ScraperManager.search`), the interaction primitives
  (`BaseScraper.click_element`, `BaseScraper.smart_wait` stable branch),
  the adapters' outer control flow (`search` try/except/finally), and the
  progress-milestone traces are translated into executable Lean functions.
  DOM access is modelled by passing in what the queries would have returned
  (anchor lists, card lists, element counts per polling tick); exceptions are
  modelled with `Except`; Python string operations are modelled by explicit
  character-list functions mirroring CPython semantics.
-/

namespace Crawler

/-! ## Python string-operation models (over character lists) -/

/-- Leading-match test: does `pat` occur at the head of `s`? -/
def charsHead : List Char → List Char → Bool
  | [], _ => true
  | _ :: _, [] => false
  | a :: as, b :: bs => a == b && charsHead as bs

/-- Python `needle in hay` on strings: substring containment. -/
def charsIn (needle : List Char) : List Char → Bool
  | [] => needle.isEmpty
  | c :: rest => charsHead needle (c :: rest) || charsIn needle rest

/-- Python `s.replace(pat, rep)`: replace all non-overlapping occurrences,
scanning left to right.  Structural recursion on a fuel that the wrapper sets
to the input length (each step consumes at least one character, so the
fallback is unreachable).  The empty-pattern case never arises in the code;
it is modelled as the identity. -/
def replaceCharsAux (pat rep : List Char) : Nat → List Char → List Char
  | _, [] => []
  | 0, s => s
  | fuel + 1, c :: rest =>
    if !pat.isEmpty && charsHead pat (c :: rest) then
      rep ++ replaceCharsAux pat rep fuel ((c :: rest).drop pat.length)
    else
      c :: replaceCharsAux pat rep fuel rest

/-- Python `s.replace(pat, rep)` on character lists. -/
def replaceChars (pat rep s : List Char) : List Char :=
  replaceCharsAux pat rep s.length s

/-- Python `s.split(sep)` for a non-empty separator: greedy left-to-right
scan; `acc` holds the current piece reversed.  Fuel as in `replaceCharsAux`. -/
def splitOnFuel (sep : List Char) : Nat → List Char → List Char → List (List Char)
  | _, [], acc => [acc.reverse]
  | 0, s, acc => [acc.reverse ++ s]
  | fuel + 1, c :: rest, acc =>
    if !sep.isEmpty && charsHead sep (c :: rest) then
      acc.reverse :: splitOnFuel sep fuel ((c :: rest).drop sep.length) []
    else
      splitOnFuel sep fuel rest (c :: acc)

/-- Python `text.split()` (no argument): split on whitespace runs, dropping
empty pieces. -/
def pyWordsAux : List Char → List Char → List (List Char)
  | [], acc => if acc.isEmpty then [] else [acc.reverse]
  | c :: rest, acc =>
    if c.isWhitespace then
      if acc.isEmpty then pyWordsAux rest [] else acc.reverse :: pyWordsAux rest []
    else
      pyWordsAux rest (c :: acc)

/-- Python `' '.join(words)`. -/
def joinWords : List (List Char) → List Char
  | [] => []
  | [w] => w
  | w :: ws => w ++ ' ' :: joinWords ws

/-- Python `s.strip()`: drop leading and trailing whitespace. -/
def trimChars (s : List Char) : List Char :=
  ((s.dropWhile Char.isWhitespace).reverse.dropWhile Char.isWhitespace).reverse

/-- Python `needle in hay` lifted to `String`. -/
def pyIn (needle hay : String) : Bool := charsIn needle.data hay.data

/-- Python `s.replace(pat, rep)` lifted to `String`. -/
def pyReplace (s pat rep : String) : String := ⟨replaceChars pat.data rep.data s.data⟩

/-- Python `s.split(sep)` (non-empty separator) lifted to `String`. -/
def pySplit (s sep : String) : List String :=
  if sep.data.isEmpty then [s]
  else (splitOnFuel sep.data s.data.length s.data []).map String.mk

/-- Python `s.strip()` lifted to `String`. -/
def pyStrip (s : String) : String := ⟨trimChars s.data⟩

/-- Python `s.lower()` lifted to `String`. -/
def pyLower (s : String) : String := ⟨s.data.map Char.toLower⟩

/-- Python `s.startswith(pat)` lifted to `String`. -/
def pyStartsWith (s pat : String) : Bool := charsHead pat.data s.data

/-- Python `c in s` for a single character. -/
def pyHasChar (s : String) (c : Char) : Bool := s.data.contains c

/-- Python truthiness of a string: non-empty. -/
def pyTruthy (s : String) : Bool := !s.data.isEmpty

/-- Text cleanup in `LoopNetScraper._extract_listing_details` (lines 264-266):
`text = element.text.strip()` then `text = ' '.join(text.split())`. -/
def cleanText (s : String) : String :=
  ⟨joinWords (pyWordsAux (trimChars s.data) [])⟩

example : pyIn "More details for " "More details for 123 Main - Retail" = true := by decide
example : pyIn "More details for " "Something else" = false := by decide
example : pyReplace "More details for 123 Main" "More details for " "" = "123 Main" := by decide
example : pySplit "123 Main - Retail for Sale" " - " = ["123 Main", "Retail for Sale"] := by decide
example : pySplit " - Retail" " - " = ["", "Retail"] := by decide
example : pyStrip "  a b  " = "a b" := by decide
example : cleanText "  123   Main  St " = "123 Main St" := by decide
example : pyLower "LoopNet.Com" = "loopnet.com" := by decide
example : pySplit "#/property/1" "/" = ["#", "property", "1"] := by decide

/-! ## ListingRecord -/

/-- A listing record: the four fields every extractor emits
(`address`, `price`, `property_type`, `url`). -/
structure Listing where
  address : String
  price : String
  property_type : String
  url : String
deriving DecidableEq, Repr

/-! ## LoopNet extractor (`LoopNetScraper._extract_listings`) -/

/-- The literal marker string used throughout the LoopNet extractor. -/
def moreDetails : String := "More details for "

/-- One anchor matching the static-DOM query for detail links
(`soup.select("a[title*='More details for']")`), as the extractor consumes it:
its `href` attribute (absent or present), its `title` attribute
(`link.get('title', '')`, hence a plain string), and, for the ancestor walk,
the text of the first price-shaped element found at each successive parent
level (`none` when that level has no matching element; the list ends where
the parent chain ends). -/
structure DetailAnchor where
  href : Option String
  title : String
  ancestorPrices : List (Option String)
deriving DecidableEq, Repr

/-- Inner loop of the ancestor-walk price lookup: the first level whose price
element exists, has non-empty text and contains a dollar sign wins
(text stripped); otherwise keep walking. -/
def findNearbyPriceGo : List (Option String) → String
  | [] => "Price not available"
  | none :: rest => findNearbyPriceGo rest
  | some t :: rest =>
    if pyTruthy t && pyHasChar t '$' then pyStrip t else findNearbyPriceGo rest

/-- Ancestor-walk price lookup in `LoopNetScraper._extract_listings`
(lines 328-340): check at most 5 parent levels, defaulting to the
`"Price not available"` sentinel. -/
def findNearbyPrice (ancestors : List (Option String)) : String :=
  findNearbyPriceGo (ancestors.take 5)

/-- Title parsing of lines 317-318: strip the marker and split on `' - '`. -/
def titleParts (title : String) : List String :=
  pySplit (pyReplace title moreDetails "") " - "

/-- Address from the parsed title (line 320): first part, with the sentinel
when the list is empty (`parts[0] if parts else ...`; a Python `split` result
is never empty, so the sentinel branch is dead there too). -/
def titleAddress (parts : List String) : String :=
  parts.headD "Address not available"

/-- Property type from the parsed title (lines 321-325): second part's text
before `'for '` when present, else the sentinel. -/
def titleType (parts : List String) : String :=
  match parts with
  | _ :: p1 :: _ =>
    if pyIn "for " p1 then pyStrip ((pySplit p1 "for ").headD "")
    else "Type not available"
  | _ => "Type not available"

/-- Record built from one detail-link anchor's title attribute
(`LoopNetScraper._extract_listings` lines 313-351): `none` when the title
lacks the `'More details for '` marker (the anchor then yields no record,
though the caller has already consumed its URL into the dedup set). -/
def anchorListing (a : DetailAnchor) (listingUrl : String) : Option Listing :=
  if pyIn moreDetails a.title then
    some ⟨titleAddress (titleParts a.title), findNearbyPrice a.ancestorPrices,
          titleType (titleParts a.title), listingUrl⟩
  else
    none

/-- Strategy 1 of `LoopNetScraper._extract_listings` (lines 299-354): scan the
detail-link anchors in document order, skipping anchors without an `href`,
skipping URLs already in the dedup set, and otherwise consuming the URL and
emitting a record when the title parses.  Returns the emitted records together
with the final dedup set (`processed_urls` is shared across strategies). -/
def linkScan : List DetailAnchor → List String → List Listing × List String
  | [], processed => ([], processed)
  | a :: rest, processed =>
    match a.href with
    | none => linkScan rest processed
    | some listingUrl =>
      if listingUrl ∈ processed then linkScan rest processed
      else
        let processed1 := listingUrl :: processed
        match anchorListing a listingUrl with
        | some l =>
          let r := linkScan rest processed1
          (l :: r.1, r.2)
        | none => linkScan rest processed1

example :
    linkScan
      [⟨some "/a/1", "More details for 123 Main St - Retail for Sale", [none, some "$500,000"]⟩,
       ⟨some "/a/1", "More details for 123 Main St - Retail for Sale", []⟩,
       ⟨some "/a/2", "More details for 9 Oak Ave", []⟩] [] =
    ([⟨"123 Main St", "$500,000", "Retail", "/a/1"⟩,
      ⟨"9 Oak Ave", "Price not available", "Type not available", "/a/2"⟩],
     ["/a/2", "/a/1"]) := by decide

/-- One listing-card container (a `div.placard-content` hit, or a hit of the
alternative `.property-card, article.placard` query): the `href` attribute of
each link matching the details-link selector inside the card (in document
order, `none` when the attribute is absent), and the raw text of the first
element matching each per-field selector (`none` when no element matches). -/
structure PlacardCard where
  linkHrefs : List (Option String)
  address : Option String
  location : Option String
  price : Option String
  property_type : Option String
deriving DecidableEq, Repr

/-- Per-field step of `LoopNetScraper._extract_listing_details`
(lines 258-274): cleaned element text when the selector matched, otherwise
the field-named sentinel `f"{field} not available"`. -/
def fieldText (o : Option String) (field : String) : String :=
  match o with
  | some t => cleanText t
  | none => field ++ " not available"

/-- First link carrying an `href` attribute (lines 374-379); `none` when no
link in the card has one (`listing_url` stays `None`). -/
def cardUrl (links : List (Option String)) : Option String :=
  (links.filterMap id).head?

/-- Strategy 2 of `LoopNetScraper._extract_listings` (lines 356-406): scan the
placard cards, skipping cards without links, without a resolvable URL, with a
falsy URL, or with an already-processed URL; otherwise consume the URL and
emit a record from the per-field details, combining address and location. -/
def placardScan : List PlacardCard → List String → List Listing × List String
  | [], processed => ([], processed)
  | card :: rest, processed =>
    if card.linkHrefs.isEmpty then placardScan rest processed
    else
      match cardUrl card.linkHrefs with
      | none => placardScan rest processed
      | some listingUrl =>
        if !pyTruthy listingUrl || listingUrl ∈ processed then placardScan rest processed
        else
          let processed1 := listingUrl :: processed
          let addr := fieldText card.address "address"
          let loc := fieldText card.location "location"
          let fullAddress :=
            if addr ≠ "Address not available" && pyTruthy loc then addr ++ ", " ++ loc
            else addr
          let l : Listing :=
            ⟨fullAddress, fieldText card.price "price", fieldText card.property_type "property_type",
             listingUrl⟩
          let r := placardScan rest processed1
          (l :: r.1, r.2)

/-- One element found by the live-DOM last resort
(`driver.find_elements` on `a[title^='More details for']`, lines 409-439):
its `href` and `title` attributes as `get_attribute` returns them
(`None` or a string). -/
structure SelAnchor where
  href : Option String
  title : Option String
deriving DecidableEq, Repr

/-- Strategy 3 of `LoopNetScraper._extract_listings` (lines 409-439): live-DOM
scan emitting partial records (price and type marked unavailable). -/
def selScan : List SelAnchor → List String → List Listing × List String
  | [], processed => ([], processed)
  | e :: rest, processed =>
    match e.href with
    | none => selScan rest processed
    | some listingUrl =>
      if !pyTruthy listingUrl || listingUrl ∈ processed then selScan rest processed
      else
        let processed1 := listingUrl :: processed
        let address :=
          match e.title with
          | some t =>
            if pyTruthy t then (pySplit (pyReplace t moreDetails "") " - ").headD ""
            else "Address not available"
          | none => "Address not available"
        let l : Listing := ⟨address, "Price not extracted directly", "Type not extracted directly", listingUrl⟩
        let r := selScan rest processed1
        (l :: r.1, r.2)

/-- The static and live DOM content of a LoopNet results page as the extractor
queries it: detail-link anchors (static), `div.placard-content` cards and the
alternative cards (static), the live-DOM anchors, and whether `self.driver`
is truthy when the last resort is considered. -/
structure LoopnetPage where
  detailAnchors : List DetailAnchor
  placardContents : List PlacardCard
  altCards : List PlacardCard
  seleniumAnchors : List SelAnchor
  driverPresent : Bool
deriving Repr

/-- Card list used by strategy 2 (lines 359-365): `div.placard-content` hits,
falling back to the alternative query when there are none. -/
def placardCards (page : LoopnetPage) : List PlacardCard :=
  if page.placardContents.isEmpty then page.altCards else page.placardContents

/-- Full control flow of `LoopNetScraper._extract_listings` (lines 276-455):
strategy 1 (detail-link/title scan) always runs first; strategy 2 (placard
scan) only if `listings` is still empty; the live-DOM strategy 3 only if
`listings` is still empty and the driver is truthy.  The `processed_urls`
dedup set threads through whichever strategies run. -/
def loopnetExtractListings (page : LoopnetPage) : List Listing :=
  let r1 := linkScan page.detailAnchors []
  if !r1.1.isEmpty then r1.1
  else
    let r2 := placardScan (placardCards page) r1.2
    if !r2.1.isEmpty then r2.1
    else if page.driverPresent then (selScan page.seleniumAnchors r2.2).1
    else []

/-- Modelled from the spec (§4.5, and the C4 claim text): the extraction
cascade as the spec states it, with the primary "listing card" container scan
FIRST, the detail-link/title scan only if the container scan yields zero
records, and the live-DOM fallback only if both static strategies yield zero.
This definition follows the spec's words and is compared against
`loopnetExtractListings`, which follows the source. -/
def loopnetExtractClaimedOrder (page : LoopnetPage) : List Listing :=
  let r1 := placardScan (placardCards page) []
  if !r1.1.isEmpty then r1.1
  else
    let r2 := linkScan page.detailAnchors r1.2
    if !r2.1.isEmpty then r2.1
    else if page.driverPresent then (selScan page.seleniumAnchors r2.2).1
    else []

example :
    loopnetExtractListings
      ⟨[⟨some "/listing/1", "More details for 123 Main St - Retail for Sale", [some "$500,000"]⟩],
       [], [], [], true⟩ =
    [⟨"123 Main St", "$500,000", "Retail", "/listing/1"⟩] := by decide

example :
    loopnetExtractListings
      ⟨[], [⟨[some "/listing/2"], some "9 Oak Ave", some "Springfield", some "$1,000,000", some "Office"⟩],
       [], [], true⟩ =
    [⟨"9 Oak Ave, Springfield", "$1,000,000", "Office", "/listing/2"⟩] := by decide

/-! ## CommercialMLS extractor (`CommercialMLSScraper._extract_listings_from_grid`) -/

/-- One grid card (`a.link` element): the raw text of the three
`find_element` lookups — `none` models the lookup raising
`NoSuchElementException`, which the per-card handler turns into skipping the
card — and the `href` attribute as `get_attribute` returns it. -/
structure GridCard where
  property_type : Option String
  address : Option String
  price : Option String
  href : Option String
deriving DecidableEq, Repr

/-- URL normalization of `_extract_listings_from_grid` (lines 364-369):
a truthy `href` starting with `'#'` is rewritten to the canonical property
URL from its last path component; otherwise the raw attribute value is kept
(including `None` and the empty string). -/
def cmlsCardUrl (href : Option String) : Option String :=
  match href with
  | none => none
  | some h =>
    if pyTruthy h && pyStartsWith h "#" then
      some ("https://www.commercialmls.com/property/" ++ (pySplit h "/").getLastD "")
    else
      some h

/-- Card loop of `_extract_listings_from_grid` (lines 347-384): a card whose
field lookup raises is skipped without touching the dedup set; a falsy or
already-processed URL is skipped; otherwise the URL is consumed and the record
kept only when all three stripped display fields are truthy. -/
def cmlsGridScan : List GridCard → List String → List Listing
  | [], _ => []
  | card :: rest, processed =>
    match card.property_type, card.address, card.price with
    | some pt0, some ad0, some pr0 =>
      let pt := pyStrip pt0
      let ad := pyStrip ad0
      let pr := pyStrip pr0
      match cmlsCardUrl card.href with
      | none => cmlsGridScan rest processed
      | some u =>
        if !pyTruthy u || u ∈ processed then cmlsGridScan rest processed
        else if pyTruthy pt && pyTruthy ad && pyTruthy pr then
          ⟨ad, pr, pt, u⟩ :: cmlsGridScan rest (u :: processed)
        else
          cmlsGridScan rest (u :: processed)
    | _, _, _ => cmlsGridScan rest processed

/-- Full `CommercialMLSScraper._extract_listings_from_grid` (lines 320-389):
when the grid-container wait raises (container never found) the outer handler
returns the empty `results`; otherwise the card loop runs on the dedup set
starting empty.  An empty card list also yields `[]` (line 340-342). -/
def cmlsExtractListingsFromGrid (containerFound : Bool) (cards : List GridCard) : List Listing :=
  if containerFound then cmlsGridScan cards [] else []

example :
    cmlsExtractListingsFromGrid true
      [⟨some "Retail", some "123 Main St", some "$500,000", some "#/property/1"⟩,
       ⟨some "Office", some "9 Oak Ave", some "", some "#/property/2"⟩] =
    [⟨"123 Main St", "$500,000", "Retail", "https://www.commercialmls.com/property/1"⟩] := by decide

/-! ## Python exceptions -/

/-- The exception classes the embedding distinguishes. -/
inductive PyErr
  | unboundLocal
  | webDriver
  | runtime
deriving DecidableEq, Repr

instance {ε α : Type} [DecidableEq ε] [DecidableEq α] : DecidableEq (Except ε α) := fun a b =>
  match a, b with
  | .error x, .error y => decidable_of_iff (x = y) (by simp)
  | .error _, .ok _ => isFalse (by simp)
  | .ok _, .error _ => isFalse (by simp)
  | .ok x, .ok y => decidable_of_iff (x = y) (by simp)

/-! ## Orchestrator (`ScraperManager.search`) -/

/-- Orchestrator result shape: flat list for a single targeted site, ordered
site-keyed mapping otherwise. -/
inductive SearchResult
  | single (listings : List Listing)
  | multi (entries : List (String × List Listing))
deriving DecidableEq, Repr

/-- Key normalization `website.split('.')[0].lower()`
(`ScraperManager.search` line 52). -/
def siteKey (w : String) : String := pyLower ((pySplit w ".").headD "")

/-- Insertion-ordered keys of `self.scrapers` (lines 21-24). -/
def scraperKeys : List String := ["loopnet", "commercialmls"]

/-- First-occurrence dedup relative to already-seen keys: the insertion order
of a Python dict built by repeated assignment. -/
def firstDedupAux (seen : List String) : List String → List String
  | [] => []
  | x :: xs =>
    if x ∈ seen then firstDedupAux seen xs
    else x :: firstDedupAux (x :: seen) xs

/-- First-occurrence dedup of a list of keys. -/
def firstDedup (l : List String) : List String := firstDedupAux [] l

/-- The keys of `websites_to_search` in insertion order (lines 49-58):
a falsy `websites` argument (`None` or the empty list) selects all scrapers;
otherwise each entry is normalized with `siteKey`, unrecognized keys are
dropped, and duplicates collapse onto their first occurrence. -/
def resolveKeys : Option (List String) → List String
  | none => scraperKeys
  | some ws =>
    if ws.isEmpty then scraperKeys
    else firstDedup ((ws.map siteKey).filter (fun k => scraperKeys.contains k))

/-- The `single_site` flag (lines 50-56): set only when `websites` is truthy
and exactly one scraper was resolved. -/
def singleSiteFlag (websites : Option (List String)) (keys : List String) : Bool :=
  (match websites with
   | some ws => !ws.isEmpty
   | none => false) && keys.length == 1

/-- `ScraperManager.search` (lines 26-86).  `outcomes` maps each scraper key
to what that scraper's `search` call does: `.ok` with its listing list, or
`.error` when it raises.  The loop body (lines 61-81) performs no exception
handling, so the first raising scraper aborts the whole call; otherwise the
results dict is returned as a flat list when `single_site` holds and exactly
one entry exists, and as the insertion-ordered mapping otherwise. -/
def managerSearch (websites : Option (List String))
    (outcomes : String → Except PyErr (List Listing)) : Except PyErr SearchResult :=
  let keys := resolveKeys websites
  match keys.mapM (fun k => (outcomes k).map (fun r => (k, r))) with
  | .error e => .error e
  | .ok results =>
    if singleSiteFlag websites keys && results.length == 1 then
      .ok (.single (results.headD ("", [])).2)
    else
      .ok (.multi results)

example :
    managerSearch (some ["LoopNet.com"]) (fun _ => .ok [⟨"a", "b", "c", "d"⟩]) =
    .ok (.single [⟨"a", "b", "c", "d"⟩]) := by decide

example :
    managerSearch none (fun _ => .ok []) =
    .ok (.multi [("loopnet", []), ("commercialmls", [])]) := by decide

example :
    managerSearch none (fun k => if k = "commercialmls" then .error .runtime else .ok []) =
    .error .runtime := by decide

/-! ## `BaseScraper.smart_wait` with `condition_type == "stable"` (lines 418-447)

Time is discretized into polling ticks: each loop iteration reads the element
count once and sleeps 0.1s, so `counts t` is the count seen by the iteration
at tick `t`, `stableTicks` is `stable_time` in polls, and `timeoutTicks`
bounds how many iterations fit in `timeout`. -/

/-- The polling loop: state is the current tick, `last_count` and
`stable_start` exactly as in the source; fuel is the remaining iterations
before `time.time() - start_time < timeout` fails, at which point the
function returns `False` (line 447). -/
def stableLoop (counts : Nat → Nat) (minCount stableTicks : Nat) :
    Nat → Nat → Nat → Option Nat → Bool
  | 0, _, _, _ => false
  | fuel + 1, t, lastCount, stableStart =>
    let c := counts t
    if c = lastCount ∧ minCount ≤ c then
      match stableStart with
      | none => stableLoop counts minCount stableTicks fuel (t + 1) lastCount (some t)
      | some s =>
        if stableTicks ≤ t - s then true
        else stableLoop counts minCount stableTicks fuel (t + 1) lastCount (some s)
    else
      stableLoop counts minCount stableTicks fuel (t + 1) c none

/-- `smart_wait("stable", selector, ...)`: run the polling loop from tick 0
with `last_count = 0` and `stable_start = None`. -/
def smartWaitStable (counts : Nat → Nat) (minCount stableTicks timeoutTicks : Nat) : Bool :=
  stableLoop counts minCount stableTicks timeoutTicks 0 0 none

/-! ## `BaseScraper.click_element` (lines 120-198) -/

/-- What the driver does during one attempt of `click_element`: the outcome
of each operation the attempt performs, each able to raise.
`waitClickable` is the boolean `smart_wait("clickable", ...)` result. -/
structure ClickAttempt where
  removeOverlays : Except PyErr Unit
  waitClickable : Except PyErr Bool
  findElement : Except PyErr Unit
  scrollIntoView : Except PyErr Unit
  strat1 : Except PyErr Unit
  strat2 : Except PyErr Unit
  strat3 : Except PyErr Unit
deriving Repr

/-- Element resolution (lines 147-155): for a selector argument, the clickable
wait runs first (its `False` means `continue` to the next attempt) and then
`find_element`; an already-resolved element is used as-is. -/
def clickResolve (a : ClickAttempt) (isSelector : Bool) : Except PyErr Bool :=
  if isSelector then
    match a.waitClickable with
    | .error e => .error e
    | .ok false => .ok false
    | .ok true =>
      match a.findElement with
      | .error e => .error e
      | .ok _ => .ok true
  else
    .ok true

/-- The three-strategy click cascade (lines 162-183): each strategy's
exception is swallowed and the next one tried; `true` as soon as one
succeeds, `false` when all three fail. -/
def clickStrategies (a : ClickAttempt) : Bool :=
  match a.strat1 with
  | .ok _ => true
  | .error _ =>
    match a.strat2 with
    | .ok _ => true
    | .error _ =>
      match a.strat3 with
      | .ok _ => true
      | .error _ => false

/-- One full attempt inside the `try` of lines 137-187: overlay removal, then
element resolution, then scroll, then the strategy cascade.  `.ok false`
means the attempt failed without raising (retry); `.error` is an exception
reaching the per-attempt handler. -/
def clickAttemptBody (a : ClickAttempt) (isSelector : Bool) : Except PyErr Bool :=
  match a.removeOverlays with
  | .error e => .error e
  | .ok _ =>
    match clickResolve a isSelector with
    | .error e => .error e
    | .ok false => .ok false
    | .ok true =>
      match a.scrollIntoView with
      | .error e => .error e
      | .ok _ => .ok (clickStrategies a)

/-- The retry loop of `click_element` (lines 136-198): the `except Exception`
at lines 189-193 swallows any exception the attempt body raises and moves on
to the next attempt; after `max_retries` attempts the function returns
`False` (line 198). -/
def clickLoop (attempts : Nat → ClickAttempt) (isSelector : Bool) :
    Nat → Nat → Except PyErr Bool
  | 0, _ => .ok false
  | n + 1, i =>
    match clickAttemptBody (attempts i) isSelector with
    | .ok true => .ok true
    | .ok false => clickLoop attempts isSelector n (i + 1)
    | .error _ => clickLoop attempts isSelector n (i + 1)

/-- `BaseScraper.click_element`: `attempts i` describes what the driver does
on attempt `i`. -/
def clickElement (attempts : Nat → ClickAttempt) (isSelector : Bool) (maxRetries : Nat) :
    Except PyErr Bool :=
  clickLoop attempts isSelector maxRetries 0

/-- Whether attempt `i` would return `True` (some strategy succeeded). -/
def attemptSucceeds (attempts : Nat → ClickAttempt) (isSelector : Bool) (i : Nat) : Bool :=
  match clickAttemptBody (attempts i) isSelector with
  | .ok true => true
  | _ => false

/-! ## Adapter outer control flow (`search` try/except/finally) -/

/-- Outcome of executing the `try` body of an adapter's `search`, together
with the value of the `results` local at that point (`none` models a local
that was never assigned). -/
inductive BodyOutcome (α : Type)
  | returned (a : α)
  | fellThrough
  | raised (e : PyErr)
deriving Repr

/-- Python `try/except Exception/finally/return results` as both adapters
write it: the handler swallows the body's exception, `_close_driver` runs in
the `finally` on every path (the returned flag), and the trailing
`return results` yields the local's value — raising `UnboundLocalError` when
the local was never assigned. -/
def tryExceptFinallyReturn {α : Type} (body : BodyOutcome α × Option α) :
    Except PyErr α × Bool :=
  match body with
  | (.returned a, _) => (.ok a, true)
  | (.fellThrough, some l) => (.ok l, true)
  | (.fellThrough, none) => (.error .unboundLocal, true)
  | (.raised _, some l) => (.ok l, true)
  | (.raised _, none) => (.error .unboundLocal, true)

/-- Where a `LoopNetScraper.search` run (lines 80-246) leaves its `try` body.
Unlike CommercialMLS, LoopNet never initializes `results` before the `try`:
the local is first assigned at line 227 (`results = self._extract_listings()`). -/
inductive LoopnetRun
  | setupFails
  | navFails
  | pageLoadFails
  | bodyFails
  | completes (page : LoopnetPage) (postFails : Bool)

/-- The `try` body of `LoopNetScraper.search`: which exit it takes and the
value of `results` at that exit.  `setupFails` and `navFails` raise before
any assignment; a false `verify_page_load` returns `[]` directly (line 101);
`bodyFails` is any uncaught exception between navigation and extraction;
`completes` reaches line 227 and binds `results`, after which a late
exception (`postFails`) may still reach the outer handler. -/
def loopnetBodyExec : LoopnetRun → BodyOutcome (List Listing) × Option (List Listing)
  | .setupFails => (.raised .webDriver, none)
  | .navFails => (.raised .webDriver, none)
  | .pageLoadFails => (.returned [], none)
  | .bodyFails => (.raised .runtime, none)
  | .completes page postFails =>
    let r := loopnetExtractListings page
    if postFails then (.raised .runtime, some r) else (.fellThrough, some r)

/-- `LoopNetScraper.search` outer control flow: result and whether
`_close_driver` ran. -/
def loopnetSearchRun (run : LoopnetRun) : Except PyErr (List Listing) × Bool :=
  tryExceptFinallyReturn (loopnetBodyExec run)

/-- Where a `CommercialMLSScraper.search` run (lines 65-196) leaves its `try`
body.  `results = []` is assigned at line 82, before the `try`. -/
inductive CmlsRun
  | setupFails
  | navFails
  | pageLoadFails
  | searchButtonFails
  | bodyFails
  | completes (containerFound : Bool) (cards : List GridCard) (postFails : Bool)

/-- The `try` body of `CommercialMLSScraper.search`: `results` is already
bound to `[]` on entry; failed page verification or search-button click
returns the empty `results` (lines 112-122); extraction rebinds `results`
at line 174. -/
def cmlsBodyExec : CmlsRun → BodyOutcome (List Listing) × Option (List Listing)
  | .setupFails => (.raised .webDriver, some [])
  | .navFails => (.raised .webDriver, some [])
  | .pageLoadFails => (.returned [], some [])
  | .searchButtonFails => (.returned [], some [])
  | .bodyFails => (.raised .runtime, some [])
  | .completes containerFound cards postFails =>
    let r := cmlsExtractListingsFromGrid containerFound cards
    if postFails then (.raised .runtime, some r) else (.fellThrough, some r)

/-- `CommercialMLSScraper.search` outer control flow. -/
def cmlsSearchRun (run : CmlsRun) : Except PyErr (List Listing) × Bool :=
  tryExceptFinallyReturn (cmlsBodyExec run)

/-! ## Progress traces

The values a successful `search` run passes to `update_progress`
(`BaseScraper.update_progress` forwards each value unchanged to the supplied
callback), in emission order, as exact rationals. -/

/-- `LoopNetScraper.search` milestone emissions on a successful run (lines
89-238): the 0.45/0.5 pair is emitted iff a price bound was supplied
(line 167) and 0.55 iff a start date was supplied (line 193). -/
def loopnetProgressTrace (hasPrice hasDate : Bool) : List ℚ :=
  [0.05, 0.1, 0.2, 0.25, 0.3, 0.35, 0.4] ++
  (if hasPrice then [0.45, 0.5] else []) ++
  (if hasDate then [0.55] else []) ++
  [0.6, 0.65, 0.7, 0.9, 1.0]

/-- `CommercialMLSScraper.search` milestone emissions on a successful run
(lines 88-187 and `_setup_search_criteria` lines 219-318). -/
def cmlsProgressTrace (hasPrice hasDate : Bool) : List ℚ :=
  [0.05, 0.1, 0.15, 0.2, 0.25, 0.3, 0.35, 0.4] ++
  (if hasPrice then [0.45, 0.5, 0.52] else []) ++
  (if hasDate then [0.54, 0.58] else []) ++
  [0.6, 0.65, 0.7, 0.8, 0.9, 1.0]

/-- A present option whose stripped text is truthy. -/
def optTruthyStrip : Option String → Bool
  | some t => pyTruthy (pyStrip t)
  | none => false

/-- A present, truthy URL. -/
def optTruthy : Option String → Bool
  | some u => pyTruthy u
  | none => false

/-- Well-formed LoopNet detail anchor: it carries an `href` and its title
contains the marker, so a fresh URL always yields a record. -/
def anchorWF (a : DetailAnchor) : Prop :=
  a.href.isSome = true ∧ pyIn moreDetails a.title = true

/-- Well-formed CommercialMLS grid card: all three field lookups succeed with
text that is non-empty after stripping, and the `href` resolves to a truthy
URL. -/
def cmlsWF (c : GridCard) : Prop :=
  optTruthyStrip c.property_type = true ∧ optTruthyStrip c.address = true ∧
  optTruthyStrip c.price = true ∧ optTruthy (cmlsCardUrl c.href) = true

instance (a : DetailAnchor) : Decidable (anchorWF a) := by unfold anchorWF; infer_instance

instance (c : GridCard) : Decidable (cmlsWF c) := by unfold cmlsWF; infer_instance

/-! ## Helper lemmas -/

theorem anchorListing_of_title {a : DetailAnchor} (u : String)
    (h : pyIn moreDetails a.title = true) :
    anchorListing a u =
      some ⟨titleAddress (titleParts a.title), findNearbyPrice a.ancestorPrices,
            titleType (titleParts a.title), u⟩ := by
  simp [anchorListing, h]

theorem anchorListing_url {a : DetailAnchor} {u : String} {l : Listing}
    (h : anchorListing a u = some l) : l.url = u := by
  unfold anchorListing at h
  split at h
  · injection h with h2
    subst h2
    rfl
  · simp at h

theorem linkScan_url_not_processed :
    ∀ (anchors : List DetailAnchor) (processed : List String) (l : Listing),
      l ∈ (linkScan anchors processed).1 → l.url ∉ processed := by
  intro anchors
  induction anchors with
  | nil => intro processed l hl; simp [linkScan] at hl
  | cons a rest ih =>
    intro processed l hl
    cases ha : a.href with
    | none =>
      simp only [linkScan, ha] at hl
      exact ih processed l hl
    | some u =>
      by_cases hu : u ∈ processed
      · simp only [linkScan, ha, if_pos hu] at hl
        exact ih processed l hl
      · cases hal : anchorListing a u with
        | some l0 =>
          simp only [linkScan, ha, if_neg hu, hal, List.mem_cons] at hl
          rcases hl with rfl | hl
          · rw [anchorListing_url hal]; exact hu
          · have hmem := ih (u :: processed) l hl
            intro hc; exact hmem (List.mem_cons_of_mem _ hc)
        | none =>
          simp only [linkScan, ha, if_neg hu, hal] at hl
          have hmem := ih (u :: processed) l hl
          intro hc; exact hmem (List.mem_cons_of_mem _ hc)

theorem linkScan_urls_nodup :
    ∀ (anchors : List DetailAnchor) (processed : List String),
      ((linkScan anchors processed).1.map Listing.url).Nodup := by
  intro anchors
  induction anchors with
  | nil => intro processed; simp [linkScan]
  | cons a rest ih =>
    intro processed
    cases ha : a.href with
    | none => simp only [linkScan, ha]; exact ih processed
    | some u =>
      by_cases hu : u ∈ processed
      · simp only [linkScan, ha, if_pos hu]; exact ih processed
      · cases hal : anchorListing a u with
        | some l0 =>
          simp only [linkScan, ha, if_neg hu, hal, List.map_cons, List.nodup_cons]
          refine ⟨?_, ih (u :: processed)⟩
          intro hc
          rcases List.mem_map.mp hc with ⟨l, hl, hurl⟩
          have := linkScan_url_not_processed rest (u :: processed) l hl
          rw [anchorListing_url hal] at hurl
          exact this (hurl ▸ List.mem_cons_self u processed)
        | none =>
          simp only [linkScan, ha, if_neg hu, hal]
          exact ih (u :: processed)

theorem linkScan_urls :
    ∀ (anchors : List DetailAnchor) (processed : List String),
      (∀ a ∈ anchors, anchorWF a) →
      (linkScan anchors processed).1.map Listing.url =
        firstDedupAux processed (anchors.filterMap DetailAnchor.href) := by
  intro anchors
  induction anchors with
  | nil => intro processed _; simp [linkScan, firstDedupAux]
  | cons a rest ih =>
    intro processed hwf
    obtain ⟨hsome, htitle⟩ := hwf a (List.mem_cons_self a rest)
    obtain ⟨u, hu⟩ := Option.isSome_iff_exists.mp hsome
    have hrest : ∀ a ∈ rest, anchorWF a := fun x hx => hwf x (List.mem_cons_of_mem _ hx)
    by_cases hmem : u ∈ processed
    · simp only [linkScan, hu, if_pos hmem, List.filterMap_cons, firstDedupAux, if_pos hmem]
      exact ih processed hrest
    · simp only [linkScan, hu, if_neg hmem, anchorListing_of_title u htitle,
        List.filterMap_cons, firstDedupAux, if_neg hmem, List.map_cons]
      exact congrArg _ (ih (u :: processed) hrest)

theorem placardScan_url_not_processed :
    ∀ (cards : List PlacardCard) (processed : List String) (l : Listing),
      l ∈ (placardScan cards processed).1 → l.url ∉ processed := by
  intro cards
  induction cards with
  | nil => intro processed l hl; simp [placardScan] at hl
  | cons card rest ih =>
    intro processed l hl
    by_cases hemp : card.linkHrefs.isEmpty = true
    · simp only [placardScan, if_pos hemp] at hl
      exact ih processed l hl
    · cases hcu : cardUrl card.linkHrefs with
      | none =>
        simp only [placardScan, if_neg hemp, hcu] at hl
        exact ih processed l hl
      | some u =>
        by_cases ht : pyTruthy u = true
        · by_cases hmem : u ∈ processed
          · simp only [placardScan, if_neg hemp, hcu, ht, hmem] at hl
            simp at hl
            exact ih processed l hl
          · simp only [placardScan, if_neg hemp, hcu, ht, hmem] at hl
            simp only [decide_False, Bool.or_false, Bool.not_true, if_false,
              Bool.false_eq_true, List.mem_cons] at hl
            rcases hl with rfl | hl
            · exact hmem
            · have hm := ih (u :: processed) l hl
              intro hc; exact hm (List.mem_cons_of_mem _ hc)
        · simp only [placardScan, if_neg hemp, hcu] at hl
          rw [Bool.not_eq_true] at ht
          simp only [ht] at hl
          simp at hl
          exact ih processed l hl

theorem placardScan_urls_nodup :
    ∀ (cards : List PlacardCard) (processed : List String),
      ((placardScan cards processed).1.map Listing.url).Nodup := by
  intro cards
  induction cards with
  | nil => intro processed; simp [placardScan]
  | cons card rest ih =>
    intro processed
    by_cases hemp : card.linkHrefs.isEmpty = true
    · simp only [placardScan, if_pos hemp]; exact ih processed
    · cases hcu : cardUrl card.linkHrefs with
      | none => simp only [placardScan, if_neg hemp, hcu]; exact ih processed
      | some u =>
        by_cases ht : pyTruthy u = true
        · by_cases hmem : u ∈ processed
          · simp only [placardScan, if_neg hemp, hcu, ht, hmem]
            simp only [decide_True, Bool.or_true, if_true]
            exact ih processed
          · simp only [placardScan, if_neg hemp, hcu, ht, hmem]
            simp only [decide_False, Bool.or_false, Bool.not_true, Bool.false_eq_true,
              if_false, List.map_cons, List.nodup_cons]
            refine ⟨?_, ih (u :: processed)⟩
            intro hc
            rcases List.mem_map.mp hc with ⟨l, hl, hurl⟩
            have hm := placardScan_url_not_processed rest (u :: processed) l hl
            exact hm (hurl ▸ List.mem_cons_self u processed)
        · simp only [placardScan, if_neg hemp, hcu]
          rw [Bool.not_eq_true] at ht
          simp only [ht]
          simp only [Bool.not_false, Bool.true_or, if_true]
          exact ih processed

theorem selScan_url_not_processed :
    ∀ (sels : List SelAnchor) (processed : List String) (l : Listing),
      l ∈ (selScan sels processed).1 → l.url ∉ processed := by
  intro sels
  induction sels with
  | nil => intro processed l hl; simp [selScan] at hl
  | cons e rest ih =>
    intro processed l hl
    cases he : e.href with
    | none =>
      simp only [selScan, he] at hl
      exact ih processed l hl
    | some u =>
      by_cases ht : pyTruthy u = true
      · by_cases hmem : u ∈ processed
        · simp only [selScan, he, ht, hmem] at hl
          simp at hl
          exact ih processed l hl
        · simp only [selScan, he, ht, hmem] at hl
          simp only [decide_False, Bool.or_false, Bool.not_true, Bool.false_eq_true,
            if_false, List.mem_cons] at hl
          rcases hl with rfl | hl
          · exact hmem
          · have hm := ih (u :: processed) l hl
            intro hc; exact hm (List.mem_cons_of_mem _ hc)
      · simp only [selScan, he] at hl
        rw [Bool.not_eq_true] at ht
        simp only [ht] at hl
        simp at hl
        exact ih processed l hl

theorem selScan_urls_nodup :
    ∀ (sels : List SelAnchor) (processed : List String),
      ((selScan sels processed).1.map Listing.url).Nodup := by
  intro sels
  induction sels with
  | nil => intro processed; simp [selScan]
  | cons e rest ih =>
    intro processed
    cases he : e.href with
    | none => simp only [selScan, he]; exact ih processed
    | some u =>
      by_cases ht : pyTruthy u = true
      · by_cases hmem : u ∈ processed
        · simp only [selScan, he, ht, hmem]
          simp only [decide_True, Bool.or_true, if_true]
          exact ih processed
        · simp only [selScan, he, ht, hmem]
          simp only [decide_False, Bool.or_false, Bool.not_true, Bool.false_eq_true,
            if_false, List.map_cons, List.nodup_cons]
          refine ⟨?_, ih (u :: processed)⟩
          intro hc
          rcases List.mem_map.mp hc with ⟨l, hl, hurl⟩
          have hm := selScan_url_not_processed rest (u :: processed) l hl
          exact hm (hurl ▸ List.mem_cons_self u processed)
      · simp only [selScan, he]
        rw [Bool.not_eq_true] at ht
        simp only [ht]
        simp only [Bool.not_false, Bool.true_or, if_true]
        exact ih processed

theorem cmlsGridScan_url_not_processed :
    ∀ (cards : List GridCard) (processed : List String) (l : Listing),
      l ∈ cmlsGridScan cards processed → l.url ∉ processed := by
  intro cards
  induction cards with
  | nil => intro processed l hl; simp [cmlsGridScan] at hl
  | cons card rest ih =>
    intro processed l hl
    cases hpt : card.property_type with
    | none => simp only [cmlsGridScan, hpt] at hl; exact ih processed l hl
    | some pt0 =>
    cases had : card.address with
    | none => simp only [cmlsGridScan, hpt, had] at hl; exact ih processed l hl
    | some ad0 =>
    cases hpr : card.price with
    | none => simp only [cmlsGridScan, hpt, had, hpr] at hl; exact ih processed l hl
    | some pr0 =>
    cases hcu : cmlsCardUrl card.href with
    | none => simp only [cmlsGridScan, hpt, had, hpr, hcu] at hl; exact ih processed l hl
    | some u =>
      simp only [cmlsGridScan, hpt, had, hpr, hcu] at hl
      split at hl
      · exact ih processed l hl
      · next hcond =>
        have hmem : u ∉ processed := by
          intro hc
          exact hcond (by simp [hc])
        split at hl
        · rcases List.mem_cons.mp hl with rfl | hl
          · exact hmem
          · have hm := ih (u :: processed) l hl
            intro hc; exact hm (List.mem_cons_of_mem _ hc)
        · have hm := ih (u :: processed) l hl
          intro hc; exact hm (List.mem_cons_of_mem _ hc)

theorem cmlsGridScan_urls_nodup :
    ∀ (cards : List GridCard) (processed : List String),
      ((cmlsGridScan cards processed).map Listing.url).Nodup := by
  intro cards
  induction cards with
  | nil => intro processed; simp [cmlsGridScan]
  | cons card rest ih =>
    intro processed
    cases hpt : card.property_type with
    | none => simp only [cmlsGridScan, hpt]; exact ih processed
    | some pt0 =>
    cases had : card.address with
    | none => simp only [cmlsGridScan, hpt, had]; exact ih processed
    | some ad0 =>
    cases hpr : card.price with
    | none => simp only [cmlsGridScan, hpt, had, hpr]; exact ih processed
    | some pr0 =>
    cases hcu : cmlsCardUrl card.href with
    | none => simp only [cmlsGridScan, hpt, had, hpr, hcu]; exact ih processed
    | some u =>
      simp only [cmlsGridScan, hpt, had, hpr, hcu]
      split
      · exact ih processed
      · next hcond =>
        split
        · simp only [List.map_cons, List.nodup_cons]
          refine ⟨?_, ih (u :: processed)⟩
          intro hc
          rcases List.mem_map.mp hc with ⟨l, hl, hurl⟩
          have hm := cmlsGridScan_url_not_processed rest (u :: processed) l hl
          exact hm (hurl ▸ List.mem_cons_self u processed)
        · exact ih (u :: processed)

theorem cmlsGridScan_fields :
    ∀ (cards : List GridCard) (processed : List String) (l : Listing),
      l ∈ cmlsGridScan cards processed →
      pyTruthy l.address = true ∧ pyTruthy l.price = true ∧
      pyTruthy l.property_type = true ∧ pyTruthy l.url = true := by
  intro cards
  induction cards with
  | nil => intro processed l hl; simp [cmlsGridScan] at hl
  | cons card rest ih =>
    intro processed l hl
    cases hpt : card.property_type with
    | none => simp only [cmlsGridScan, hpt] at hl; exact ih processed l hl
    | some pt0 =>
    cases had : card.address with
    | none => simp only [cmlsGridScan, hpt, had] at hl; exact ih processed l hl
    | some ad0 =>
    cases hpr : card.price with
    | none => simp only [cmlsGridScan, hpt, had, hpr] at hl; exact ih processed l hl
    | some pr0 =>
    cases hcu : cmlsCardUrl card.href with
    | none => simp only [cmlsGridScan, hpt, had, hpr, hcu] at hl; exact ih processed l hl
    | some u =>
      simp only [cmlsGridScan, hpt, had, hpr, hcu] at hl
      split at hl
      · exact ih processed l hl
      · next hcond =>
        have hu : pyTruthy u = true := by
          cases hb : pyTruthy u
          · exact absurd (by simp [hb]) hcond
          · rfl
        split at hl
        · next hf =>
          rcases List.mem_cons.mp hl with rfl | hl
          · simp only [Bool.and_eq_true] at hf
            exact ⟨hf.1.2, hf.2, hf.1.1, hu⟩
          · exact ih (u :: processed) l hl
        · exact ih (u :: processed) l hl

theorem cmlsGridScan_urls :
    ∀ (cards : List GridCard) (processed : List String),
      (∀ c ∈ cards, cmlsWF c) →
      (cmlsGridScan cards processed).map Listing.url =
        firstDedupAux processed (cards.filterMap (fun c => cmlsCardUrl c.href)) := by
  intro cards
  induction cards with
  | nil => intro processed _; simp [cmlsGridScan, firstDedupAux]
  | cons card rest ih =>
    intro processed hwf
    obtain ⟨h1, h2, h3, h4⟩ := hwf card (List.mem_cons_self card rest)
    have hrest : ∀ c ∈ rest, cmlsWF c := fun x hx => hwf x (List.mem_cons_of_mem _ hx)
    obtain ⟨pt0, hpt⟩ : ∃ t, card.property_type = some t := by
      cases hx : card.property_type
      · rw [hx] at h1; exact absurd h1 (by simp [optTruthyStrip])
      · exact ⟨_, rfl⟩
    obtain ⟨ad0, had⟩ : ∃ t, card.address = some t := by
      cases hx : card.address
      · rw [hx] at h2; exact absurd h2 (by simp [optTruthyStrip])
      · exact ⟨_, rfl⟩
    obtain ⟨pr0, hpr⟩ : ∃ t, card.price = some t := by
      cases hx : card.price
      · rw [hx] at h3; exact absurd h3 (by simp [optTruthyStrip])
      · exact ⟨_, rfl⟩
    obtain ⟨u, hcu⟩ : ∃ u, cmlsCardUrl card.href = some u := by
      cases hx : cmlsCardUrl card.href
      · rw [hx] at h4; exact absurd h4 (by simp [optTruthy])
      · exact ⟨_, rfl⟩
    have hptt : pyTruthy (pyStrip pt0) = true := by
      rw [hpt] at h1; simpa [optTruthyStrip] using h1
    have hadt : pyTruthy (pyStrip ad0) = true := by
      rw [had] at h2; simpa [optTruthyStrip] using h2
    have hprt : pyTruthy (pyStrip pr0) = true := by
      rw [hpr] at h3; simpa [optTruthyStrip] using h3
    have hut : pyTruthy u = true := by
      rw [hcu] at h4; simpa [optTruthy] using h4
    by_cases hmem : u ∈ processed
    · simp only [cmlsGridScan, hpt, had, hpr, hcu, hut, hmem, List.filterMap_cons,
        firstDedupAux, if_pos hmem]
      simp only [decide_True, Bool.or_true, if_true]
      exact ih processed hrest
    · simp only [cmlsGridScan, hpt, had, hpr, hcu, hut, hmem, List.filterMap_cons,
        firstDedupAux, if_neg hmem]
      simp only [decide_False, Bool.or_false, Bool.not_true, Bool.false_eq_true, if_false,
        hptt, hadt, hprt, Bool.and_self, if_true, List.map_cons]
      exact congrArg _ (ih (u :: processed) hrest)

theorem mem_dropWhile_of_not {p : Char → Bool} {c : Char} (hc : p c = false) :
    ∀ l : List Char, c ∈ l → c ∈ l.dropWhile p := by
  intro l
  induction l with
  | nil => intro h; exact h
  | cons a rest ih =>
    intro h
    cases hpa : p a with
    | true =>
      rw [List.dropWhile_cons_of_pos hpa]
      rcases List.mem_cons.mp h with rfl | h
      · rw [hpa] at hc; cases hc
      · exact ih h
    | false =>
      rw [List.dropWhile_cons_of_neg (by simp [hpa])]
      exact h

theorem mem_trimChars {c : Char} (hws : c.isWhitespace = false) {l : List Char}
    (h : c ∈ l) : c ∈ trimChars l := by
  unfold trimChars
  rw [List.mem_reverse]
  apply mem_dropWhile_of_not hws
  rw [List.mem_reverse]
  exact mem_dropWhile_of_not hws _ h

theorem pyHasChar_pyStrip {t : String} {c : Char} (hws : c.isWhitespace = false)
    (h : pyHasChar t c = true) : pyHasChar (pyStrip t) c = true := by
  unfold pyHasChar pyStrip at *
  exact List.elem_eq_true_of_mem (mem_trimChars hws (List.mem_of_elem_eq_true h))

theorem findNearbyPriceGo_spec :
    ∀ lvls : List (Option String),
      findNearbyPriceGo lvls = "Price not available" ∨
      pyHasChar (findNearbyPriceGo lvls) '$' = true := by
  intro lvls
  induction lvls with
  | nil => left; rfl
  | cons o rest ih =>
    cases o with
    | none => simpa [findNearbyPriceGo] using ih
    | some t =>
      by_cases hcond : (pyTruthy t && pyHasChar t '$') = true
      · right
        simp only [findNearbyPriceGo, hcond, if_true]
        have hd : pyHasChar t '$' = true := by
          simp only [Bool.and_eq_true] at hcond
          exact hcond.2
        exact pyHasChar_pyStrip (by decide) hd
      · simp only [findNearbyPriceGo, hcond, if_false]
        simpa using ih

theorem findNearbyPrice_spec (ancestors : List (Option String)) :
    findNearbyPrice ancestors = "Price not available" ∨
    pyHasChar (findNearbyPrice ancestors) '$' = true :=
  findNearbyPriceGo_spec (ancestors.take 5)

theorem linkScan_price_spec :
    ∀ (anchors : List DetailAnchor) (processed : List String) (l : Listing),
      l ∈ (linkScan anchors processed).1 →
      l.price = "Price not available" ∨ pyHasChar l.price '$' = true := by
  intro anchors
  induction anchors with
  | nil => intro processed l hl; simp [linkScan] at hl
  | cons a rest ih =>
    intro processed l hl
    cases ha : a.href with
    | none => simp only [linkScan, ha] at hl; exact ih processed l hl
    | some u =>
      by_cases hu : u ∈ processed
      · simp only [linkScan, ha, if_pos hu] at hl; exact ih processed l hl
      · cases hal : anchorListing a u with
        | some l0 =>
          simp only [linkScan, ha, if_neg hu, hal, List.mem_cons] at hl
          rcases hl with rfl | hl
          · have hp : l.price = findNearbyPrice a.ancestorPrices := by
              unfold anchorListing at hal
              split at hal
              · injection hal with h2; subst h2; rfl
              · simp at hal
            rw [hp]
            exact findNearbyPrice_spec a.ancestorPrices
          · exact ih (u :: processed) l hl
        | none =>
          simp only [linkScan, ha, if_neg hu, hal] at hl
          exact ih (u :: processed) l hl

theorem placardScan_price_sentinel :
    ∀ (cards : List PlacardCard) (processed : List String),
      (∀ c ∈ cards, c.price = none) →
      ∀ l ∈ (placardScan cards processed).1, l.price = "price not available" := by
  intro cards
  induction cards with
  | nil => intro processed _ l hl; simp [placardScan] at hl
  | cons card rest ih =>
    intro processed hnone l hl
    have hcard : card.price = none := hnone card (List.mem_cons_self card rest)
    have hrest : ∀ c ∈ rest, c.price = none := fun x hx => hnone x (List.mem_cons_of_mem _ hx)
    by_cases hemp : card.linkHrefs.isEmpty = true
    · simp only [placardScan, if_pos hemp] at hl; exact ih processed hrest l hl
    · cases hcu : cardUrl card.linkHrefs with
      | none => simp only [placardScan, if_neg hemp, hcu] at hl; exact ih processed hrest l hl
      | some u =>
        simp only [placardScan, if_neg hemp, hcu] at hl
        split at hl
        · exact ih processed hrest l hl
        · rcases List.mem_cons.mp hl with rfl | hl
          · simp [fieldText, hcard]
          · exact ih (u :: processed) hrest l hl

theorem selScan_constants :
    ∀ (sels : List SelAnchor) (processed : List String) (l : Listing),
      l ∈ (selScan sels processed).1 →
      l.price = "Price not extracted directly" ∧
      l.property_type = "Type not extracted directly" := by
  intro sels
  induction sels with
  | nil => intro processed l hl; simp [selScan] at hl
  | cons e rest ih =>
    intro processed l hl
    cases he : e.href with
    | none => simp only [selScan, he] at hl; exact ih processed l hl
    | some u =>
      simp only [selScan, he] at hl
      split at hl
      · exact ih processed l hl
      · rcases List.mem_cons.mp hl with rfl | hl
        · exact ⟨rfl, rfl⟩
        · exact ih (u :: processed) l hl

theorem mapM_outcomes_ok
    (outcomes : String → Except PyErr (List Listing)) (lists : String → List Listing) :
    ∀ keys : List String,
      (∀ k ∈ keys, outcomes k = .ok (lists k)) →
      keys.mapM (fun k => (outcomes k).map (fun r => (k, r))) =
        .ok (keys.map (fun k => (k, lists k))) := by
  intro keys
  induction keys with
  | nil => intro _; rfl
  | cons k rest ih =>
    intro h
    have hk : outcomes k = .ok (lists k) := h k (List.mem_cons_self k rest)
    have hrest := ih (fun x hx => h x (List.mem_cons_of_mem _ hx))
    rw [List.mapM_cons, hk, hrest]
    rfl

theorem mapM_outcomes_error
    (outcomes : String → Except PyErr (List Listing)) :
    ∀ keys : List String,
      (∃ k ∈ keys, ∃ e, outcomes k = .error e) →
      ∃ e, keys.mapM (fun k => (outcomes k).map (fun r => (k, r))) = .error e := by
  intro keys
  induction keys with
  | nil => rintro ⟨k, hk, _⟩; simp at hk
  | cons k rest ih =>
    rintro ⟨k0, hk0, e0, he0⟩
    cases hk : outcomes k with
    | error e1 =>
      refine ⟨e1, ?_⟩
      rw [List.mapM_cons, hk]
      rfl
    | ok r =>
      have hk0rest : k0 ∈ rest := by
        rcases List.mem_cons.mp hk0 with rfl | h
        · rw [hk] at he0; cases he0
        · exact h
      obtain ⟨e2, h2⟩ := ih ⟨k0, hk0rest, e0, he0⟩
      refine ⟨e2, ?_⟩
      rw [List.mapM_cons, hk, h2]
      rfl

theorem clickLoop_spec (attempts : Nat → ClickAttempt) (isSelector : Bool) :
    ∀ n i : Nat,
      clickLoop attempts isSelector n i =
        .ok ((List.range' i n).any (fun j => attemptSucceeds attempts isSelector j)) := by
  intro n
  induction n with
  | zero => intro i; simp [clickLoop, List.range']
  | succ n ih =>
    intro i
    rw [List.range'_succ, List.any_cons]
    cases hb : clickAttemptBody (attempts i) isSelector with
    | ok b =>
      cases b with
      | true =>
        have hs : attemptSucceeds attempts isSelector i = true := by
          unfold attemptSucceeds; rw [hb]
        simp only [clickLoop, hb, hs, Bool.true_or]
      | false =>
        have hs : attemptSucceeds attempts isSelector i = false := by
          unfold attemptSucceeds; rw [hb]
        simp only [clickLoop, hb, hs, Bool.false_or]
        exact ih (i + 1)
    | error e =>
      have hs : attemptSucceeds attempts isSelector i = false := by
        unfold attemptSucceeds; rw [hb]
      simp only [clickLoop, hb, hs, Bool.false_or]
      exact ih (i + 1)

theorem stableLoop_sound (counts : Nat → Nat) (minCount stableTicks : Nat) :
    ∀ (fuel t lastCount : Nat) (ss : Option Nat),
      (∀ s, ss = some s → s < t ∧ minCount ≤ lastCount ∧
        ∀ u, s ≤ u → u < t → counts u = lastCount) →
      stableLoop counts minCount stableTicks fuel t lastCount ss = true →
      ∃ s e, s ≤ e ∧ e < t + fuel ∧ stableTicks ≤ e - s ∧ minCount ≤ counts s ∧
        ∀ u, s ≤ u → u ≤ e → counts u = counts s := by
  intro fuel
  induction fuel with
  | zero => intro t lastCount ss _ hres; simp [stableLoop] at hres
  | succ fuel ih =>
    intro t lastCount ss hinv hres
    simp only [stableLoop] at hres
    split at hres
    · next hc =>
      cases hss : ss with
      | none =>
        rw [hss] at hres
        have hinv2 : ∀ s, (some t : Option Nat) = some s → s < t + 1 ∧ minCount ≤ lastCount ∧
            ∀ u, s ≤ u → u < t + 1 → counts u = lastCount := by
          intro s hs
          injection hs with hs
          subst hs
          refine ⟨Nat.lt_succ_self t, ?_, ?_⟩
          · have h1 := hc.1; have h2 := hc.2; omega
          · intro u hu1 hu2
            have hu : u = t := by omega
            subst hu; exact hc.1
        obtain ⟨s, e, h1, h2, h3, h4, h5⟩ := ih (t + 1) lastCount (some t) hinv2 hres
        exact ⟨s, e, h1, by omega, h3, h4, h5⟩
      | some s0 =>
        rw [hss] at hres
        simp only [] at hres
        split at hres
        · next hst =>
          obtain ⟨hs0, hmin, hall⟩ := hinv s0 hss
          have hcs : counts s0 = lastCount := hall s0 le_rfl hs0
          refine ⟨s0, t, by omega, by omega, hst, ?_, ?_⟩
          · rw [hcs]; exact hmin
          · intro u hu1 hu2
            rcases Nat.lt_or_ge u t with h | h
            · rw [hall u hu1 h, hcs]
            · have hu : u = t := by omega
              subst hu; rw [hc.1, hcs]
        · next hst =>
          obtain ⟨hs0, hmin, hall⟩ := hinv s0 hss
          have hinv2 : ∀ s, (some s0 : Option Nat) = some s → s < t + 1 ∧ minCount ≤ lastCount ∧
              ∀ u, s ≤ u → u < t + 1 → counts u = lastCount := by
            intro s hs
            injection hs with hs
            subst hs
            refine ⟨by omega, hmin, ?_⟩
            intro u hu1 hu2
            rcases Nat.lt_or_ge u t with h | h
            · exact hall u hu1 h
            · have hu : u = t := by omega
              subst hu; exact hc.1
          obtain ⟨s, e, h1, h2, h3, h4, h5⟩ := ih (t + 1) lastCount (some s0) hinv2 hres
          exact ⟨s, e, h1, by omega, h3, h4, h5⟩
    · obtain ⟨s, e, h1, h2, h3, h4, h5⟩ :=
        ih (t + 1) (counts t) none (by intro s hs; cases hs) hres
      exact ⟨s, e, h1, by omega, h3, h4, h5⟩

theorem managerSearch_congr {w1 w2 : Option (List String)}
    (outcomes : String → Except PyErr (List Listing))
    (hkeys : resolveKeys w1 = resolveKeys w2)
    (hflag : singleSiteFlag w1 (resolveKeys w1) = singleSiteFlag w2 (resolveKeys w2)) :
    managerSearch w1 outcomes = managerSearch w2 outcomes := by
  simp only [managerSearch]
  rw [hflag, hkeys]

theorem exists_ok_of_ite {c : Prop} [Decidable c] (x y : SearchResult) :
    ∃ v, (if c then Except.ok (ε := PyErr) x else Except.ok y) = Except.ok v := by
  split
  · exact ⟨x, rfl⟩
  · exact ⟨y, rfl⟩

/-! ## Claim theorems -/

/-- C1 counterexample: with both sites targeted and the CommercialMLS adapter
raising mid-run while the LoopNet adapter succeeds with a fully-populated
list, `ScraperManager.search` itself raises — it returns no mapping at all —
contradicting the claim that the exception is caught and converted to an
empty entry at the orchestrator boundary. -/
theorem C1_counterexample :
    managerSearch none
      (fun k => if k = "commercialmls" then .error .runtime
                else .ok [⟨"123 Main St", "$500,000", "Retail", "/listing/1"⟩]) =
      .error .runtime ∧
    ∀ r, managerSearch none
      (fun k => if k = "commercialmls" then .error .runtime
                else .ok [⟨"123 Main St", "$500,000", "Retail", "/listing/1"⟩]) ≠ .ok r := by
  have h1 : managerSearch none
      (fun k => if k = "commercialmls" then .error .runtime
                else .ok [⟨"123 Main St", "$500,000", "Retail", "/listing/1"⟩]) =
      .error .runtime := by decide
  refine ⟨h1, ?_⟩
  intro r hr
  rw [h1] at hr
  exact Except.noConfusion hr

/-- C1 (amended): `ScraperManager.search` performs no exception handling of
its own — if any targeted site's adapter raises, the whole call raises
(results accumulated for earlier sites are discarded), and only when no
targeted adapter raises does the call return, with an entry for every
targeted site.  Failure isolation lives inside the adapters, not at the
orchestrator boundary. -/
theorem C1_orchestrator_propagates :
    ∀ (websites : Option (List String)) (outcomes : String → Except PyErr (List Listing)),
      ((∃ k ∈ resolveKeys websites, ∃ e, outcomes k = .error e) →
        ∃ e, managerSearch websites outcomes = .error e) ∧
      ((∀ k ∈ resolveKeys websites, ∃ r, outcomes k = .ok r) →
        ∃ v, managerSearch websites outcomes = .ok v) := by
  intro ws outcomes
  constructor
  · intro hex
    obtain ⟨e, he⟩ := mapM_outcomes_error outcomes (resolveKeys ws) hex
    refine ⟨e, ?_⟩
    simp only [managerSearch]
    rw [he]
  · intro hall
    have hlists : ∀ k ∈ resolveKeys ws,
        outcomes k = .ok ((outcomes k).toOption.getD []) := by
      intro k hk
      obtain ⟨r, hr⟩ := hall k hk
      rw [hr]
      rfl
    have hm := mapM_outcomes_ok outcomes (fun k => (outcomes k).toOption.getD [])
      (resolveKeys ws) hlists
    simp only [managerSearch, hm]
    exact exists_ok_of_ite _ _

/-- C1 witness: the amended theorem applied to a run where CommercialMLS
raises (first conjunct) and to a run where both adapters return (second
conjunct). -/
theorem C1_witness :
    (∃ e, managerSearch none
        (fun k => if k = "commercialmls" then .error .runtime else .ok []) = .error e) ∧
    (∃ v, managerSearch none (fun _ => .ok []) = .ok v) :=
  ⟨(C1_orchestrator_propagates none
      (fun k => if k = "commercialmls" then .error .runtime else .ok [])).1
      ⟨"commercialmls", by decide, .runtime, by decide⟩,
   (C1_orchestrator_propagates none (fun _ => .ok [])).2 (fun k _ => ⟨[], rfl⟩)⟩

/-- C8: when exactly one recognized site was targeted (`single_site` set), the
result is that site's flat listing list; when several were targeted, or none
were specified, the result is the site-keyed mapping whose insertion order is
the invocation order `resolveKeys` gives. -/
theorem C8_result_shape :
    ∀ (websites : Option (List String)) (outcomes : String → Except PyErr (List Listing))
      (lists : String → List Listing),
      (∀ k ∈ resolveKeys websites, outcomes k = .ok (lists k)) →
      managerSearch websites outcomes =
        .ok (if singleSiteFlag websites (resolveKeys websites) then
               .single (lists ((resolveKeys websites).headD ""))
             else
               .multi ((resolveKeys websites).map (fun k => (k, lists k)))) := by
  intro ws outcomes lists h
  simp only [managerSearch]
  rw [mapM_outcomes_ok outcomes lists _ h]
  by_cases hs : singleSiteFlag ws (resolveKeys ws) = true
  · have hlen : (resolveKeys ws).length = 1 := by
      unfold singleSiteFlag at hs
      simp only [Bool.and_eq_true, beq_iff_eq] at hs
      exact hs.2
    obtain ⟨k, hk⟩ := List.length_eq_one.mp hlen
    rw [hk] at hs ⊢
    simp [hs]
  · have hs' : singleSiteFlag ws (resolveKeys ws) = false := by
      cases hb : singleSiteFlag ws (resolveKeys ws)
      · rfl
      · exact absurd hb hs
    simp [hs']

/-- C8 witness: the theorem applied to a single-site call (flat list) and the
resulting evaluation. -/
theorem C8_witness :
    managerSearch (some ["LoopNet.com"])
      (fun _ => .ok [⟨"123 Main St", "$500,000", "Retail", "/l/1"⟩]) =
      .ok (.single [⟨"123 Main St", "$500,000", "Retail", "/l/1"⟩]) :=
  (C8_result_shape (some ["LoopNet.com"])
      (fun _ => .ok [⟨"123 Main St", "$500,000", "Retail", "/l/1"⟩])
      (fun _ => [⟨"123 Main St", "$500,000", "Retail", "/l/1"⟩])
      (fun _ _ => rfl)).trans (by decide)

/-- C10: an empty `websites` list is falsy, hence treated exactly like the
omitted argument (all sites searched, mapping returned); a non-empty list
with no recognized identifier yields the empty mapping without consulting any
adapter (the result is the same for every `outcomes`, including all-raising
ones); and unrecognized identifiers in a mixed list are silently dropped —
the call behaves as if only the recognized entries had been passed. -/
theorem C10_website_filtering :
    (∀ outcomes : String → Except PyErr (List Listing),
      managerSearch (some []) outcomes = managerSearch none outcomes) ∧
    (∀ (ws : List String) (outcomes : String → Except PyErr (List Listing)),
      ws ≠ [] → (∀ w ∈ ws, siteKey w ∉ scraperKeys) →
      managerSearch (some ws) outcomes = .ok (.multi [])) ∧
    (∀ (ws : List String) (outcomes : String → Except PyErr (List Listing)),
      ws.filter (fun w => scraperKeys.contains (siteKey w)) ≠ [] →
      managerSearch (some ws) outcomes =
        managerSearch (some (ws.filter (fun w => scraperKeys.contains (siteKey w)))) outcomes) := by
  refine ⟨fun outcomes => rfl, ?_, ?_⟩
  · intro ws outcomes hne hnorec
    have hfil : (ws.map siteKey).filter (fun k => scraperKeys.contains k) = [] := by
      rw [List.filter_eq_nil_iff]
      intro k hk
      rcases List.mem_map.mp hk with ⟨w, hw, rfl⟩
      have hnr := hnorec w hw
      simp only [Bool.not_eq_true]
      cases hb : scraperKeys.contains (siteKey w)
      · rfl
      · exact absurd (List.mem_of_elem_eq_true hb) hnr
    have hkeys : resolveKeys (some ws) = [] := by
      simp only [resolveKeys]
      rw [if_neg (by simpa [List.isEmpty_iff] using hne)]
      rw [hfil]
      rfl
    simp only [managerSearch]
    rw [hkeys]
    have h01 : (0 == 1) = false := rfl
    simp only [singleSiteFlag, List.length_nil, h01, Bool.and_false, Bool.false_and,
      Bool.false_eq_true, if_false]
    rfl
  · intro ws outcomes hfne
    have hmapeq : (ws.filter (fun w => scraperKeys.contains (siteKey w))).map siteKey =
        (ws.map siteKey).filter (fun k => scraperKeys.contains k) := by
      rw [List.filter_map]
      rfl
    have hkeys : resolveKeys (some ws) =
        resolveKeys (some (ws.filter (fun w => scraperKeys.contains (siteKey w)))) := by
      simp only [resolveKeys]
      have hwsne : ws ≠ [] := by
        intro hc
        rw [hc] at hfne
        exact hfne rfl
      rw [if_neg (by simpa [List.isEmpty_iff] using hwsne),
        if_neg (by simpa [List.isEmpty_iff] using hfne)]
      rw [hmapeq, List.filter_filter]
      simp
    apply managerSearch_congr outcomes hkeys
    rw [hkeys]
    simp only [singleSiteFlag]
    have hwsne : ws ≠ [] := by
      intro hc
      rw [hc] at hfne
      exact hfne rfl
    have h1 : ws.isEmpty = false := by
      cases hb : ws.isEmpty
      · rfl
      · exact absurd (List.isEmpty_iff.mp hb) hwsne
    have h2 : (ws.filter (fun w => scraperKeys.contains (siteKey w))).isEmpty = false := by
      cases hb : (ws.filter (fun w => scraperKeys.contains (siteKey w))).isEmpty
      · rfl
      · exact absurd (List.isEmpty_iff.mp hb) hfne
    rw [h1, h2]

/-- C10 witness: the second conjunct applied to a one-entry list whose only
identifier is unrecognized, with adapters that would raise if consulted. -/
theorem C10_witness :
    managerSearch (some ["zillow.com"]) (fun _ => .error .runtime) = .ok (.multi []) :=
  C10_website_filtering.2.1 ["zillow.com"] (fun _ => .error .runtime)
    (by decide) (by decide)

theorem loopnetExtract_eq_linkScan
    (anchors : List DetailAnchor) (pc ac : List PlacardCard) (sel : List SelAnchor) (dp : Bool)
    (hne : anchors ≠ []) (hwf : ∀ a ∈ anchors, anchorWF a) :
    loopnetExtractListings ⟨anchors, pc, ac, sel, dp⟩ = (linkScan anchors []).1 := by
  have hurls := linkScan_urls anchors [] hwf
  have hnonempty : (linkScan anchors []).1 ≠ [] := by
    cases anchors with
    | nil => exact absurd rfl hne
    | cons a rest =>
      obtain ⟨hsome, _⟩ := hwf a (List.mem_cons_self a rest)
      obtain ⟨u, hu⟩ := Option.isSome_iff_exists.mp hsome
      intro hcontra
      rw [hcontra] at hurls
      simp [List.filterMap_cons, hu, firstDedupAux] at hurls
  have hie : ((linkScan anchors []).1).isEmpty = false := by
    cases hb : ((linkScan anchors []).1).isEmpty
    · rfl
    · exact absurd (List.isEmpty_iff.mp hb) hnonempty
  simp only [loopnetExtractListings, hie, Bool.not_false, if_true]

/-- C2 counterexample: a CommercialMLS grid page holding exactly one unique,
resolvable detail URL (one anchor occurrence, so N = M = 1) whose price text
is empty yields zero records instead of exactly one. -/
theorem C2_counterexample :
    cmlsExtractListingsFromGrid true
      [⟨some "Office", some "9 Oak Ave", some "", some "#/property/2"⟩] = [] ∧
    cmlsCardUrl (some "#/property/2") = some "https://www.commercialmls.com/property/2" := by
  decide

/-- C2 (amended): in every extraction pass of either extractor no two returned
records share a detail URL; and when every anchor occurrence is well formed —
LoopNet: carries an href and the title marker; CommercialMLS: all three
display fields present and non-empty and the href resolves to a truthy URL —
the pass returns exactly one record per unique detail URL, keeping first
occurrences in document order.  A malformed occurrence may instead consume its
URL or drop the card, so a unique URL need not yield a record in general. -/
theorem C2_dedup :
    (∀ page : LoopnetPage, ((loopnetExtractListings page).map Listing.url).Nodup) ∧
    (∀ (containerFound : Bool) (cards : List GridCard),
      ((cmlsExtractListingsFromGrid containerFound cards).map Listing.url).Nodup) ∧
    (∀ (anchors : List DetailAnchor) (pc ac : List PlacardCard) (sel : List SelAnchor) (dp : Bool),
      anchors ≠ [] → (∀ a ∈ anchors, anchorWF a) →
      (loopnetExtractListings ⟨anchors, pc, ac, sel, dp⟩).map Listing.url =
        firstDedup (anchors.filterMap DetailAnchor.href)) ∧
    (∀ cards : List GridCard, (∀ c ∈ cards, cmlsWF c) →
      (cmlsExtractListingsFromGrid true cards).map Listing.url =
        firstDedup (cards.filterMap (fun c => cmlsCardUrl c.href))) := by
  refine ⟨?_, ?_, ?_, ?_⟩
  · intro page
    simp only [loopnetExtractListings]
    by_cases h1 : (!(linkScan page.detailAnchors []).1.isEmpty) = true
    · rw [if_pos h1]
      exact linkScan_urls_nodup page.detailAnchors []
    · rw [if_neg h1]
      by_cases h2 : (!(placardScan (placardCards page)
          (linkScan page.detailAnchors []).2).1.isEmpty) = true
      · rw [if_pos h2]
        exact placardScan_urls_nodup (placardCards page) _
      · rw [if_neg h2]
        by_cases h3 : page.driverPresent = true
        · rw [if_pos h3]
          exact selScan_urls_nodup page.seleniumAnchors _
        · rw [if_neg h3]
          simp
  · intro containerFound cards
    simp only [cmlsExtractListingsFromGrid]
    by_cases h : containerFound = true
    · rw [if_pos h]
      exact cmlsGridScan_urls_nodup cards []
    · rw [if_neg h]
      simp
  · intro anchors pc ac sel dp hne hwf
    rw [loopnetExtract_eq_linkScan anchors pc ac sel dp hne hwf]
    exact linkScan_urls anchors [] hwf
  · intro cards hwf
    simp only [cmlsExtractListingsFromGrid, if_true]
    exact cmlsGridScan_urls cards [] hwf

/-- C2 witness: the first-occurrence-wins count applied to a LoopNet page with
two anchor occurrences of one URL plus one further unique URL (M = 3, N = 2),
and the CommercialMLS count applied to one well-formed card. -/
theorem C2_witness :
    (loopnetExtractListings
      ⟨[⟨some "/a/1", "More details for 123 Main St - Retail for Sale", []⟩,
        ⟨some "/a/1", "More details for 123 Main St - Retail for Sale", []⟩,
        ⟨some "/a/2", "More details for 9 Oak Ave", []⟩], [], [], [], true⟩).map Listing.url =
      firstDedup ["/a/1", "/a/1", "/a/2"] ∧
    (cmlsExtractListingsFromGrid true
      [⟨some "Retail", some "123 Main St", some "$500,000", some "#/property/1"⟩]).map Listing.url =
      firstDedup ["https://www.commercialmls.com/property/1"] := by
  constructor
  · have h := C2_dedup.2.2.1
      [⟨some "/a/1", "More details for 123 Main St - Retail for Sale", []⟩,
       ⟨some "/a/1", "More details for 123 Main St - Retail for Sale", []⟩,
       ⟨some "/a/2", "More details for 9 Oak Ave", []⟩] [] [] [] true
      (by decide) (by decide)
    exact h.trans (by decide)
  · have h := C2_dedup.2.2.2
      [⟨some "Retail", some "123 Main St", some "$500,000", some "#/property/1"⟩]
      (by decide)
    exact h.trans (by decide)

/-- C4 counterexample: a page containing one listing-card container (with its
own address, location, price and type, and a resolvable detail link) AND one
titled detail anchor for the same URL.  Under the spec's claimed order
(container scan first) the record would come from the card; the code's
extractor instead returns the record parsed from the anchor title — the
detail-link/title scan runs FIRST, not second. -/
theorem C4_counterexample :
    loopnetExtractListings
      ⟨[⟨some "/u/1", "More details for 123 Anchor St - Retail for Sale", []⟩],
       [⟨[some "/u/1"], some "456 Card Ave", some "Springfield", some "$1,000,000", some "Office"⟩],
       [], [], true⟩ =
      [⟨"123 Anchor St", "Price not available", "Retail", "/u/1"⟩] ∧
    loopnetExtractClaimedOrder
      ⟨[⟨some "/u/1", "More details for 123 Anchor St - Retail for Sale", []⟩],
       [⟨[some "/u/1"], some "456 Card Ave", some "Springfield", some "$1,000,000", some "Office"⟩],
       [], [], true⟩ =
      [⟨"456 Card Ave, Springfield", "$1,000,000", "Office", "/u/1"⟩] ∧
    loopnetExtractListings
      ⟨[⟨some "/u/1", "More details for 123 Anchor St - Retail for Sale", []⟩],
       [⟨[some "/u/1"], some "456 Card Ave", some "Springfield", some "$1,000,000", some "Office"⟩],
       [], [], true⟩ ≠
    loopnetExtractClaimedOrder
      ⟨[⟨some "/u/1", "More details for 123 Anchor St - Retail for Sale", []⟩],
       [⟨[some "/u/1"], some "456 Card Ave", some "Springfield", some "$1,000,000", some "Office"⟩],
       [], [], true⟩ := by
  refine ⟨by decide, by decide, by decide⟩

/-- C4 (amended): the cascade order in the code is detail-link/title scan
first, listing-card container scan second (only if the first yielded zero
records), live-DOM fallback last.  Consequently a page whose detail anchors
are well formed yields its records from the link/title scan — one per unique
href, regardless of what the container lists or the live DOM hold — and the
live-DOM fallback is not consulted (the result is invariant under changing
the page's placard cards and live-DOM anchors). -/
theorem C4_cascade :
    ∀ (anchors : List DetailAnchor) (pc ac : List PlacardCard) (sel : List SelAnchor) (dp : Bool),
      anchors ≠ [] → (∀ a ∈ anchors, anchorWF a) →
      loopnetExtractListings ⟨anchors, pc, ac, sel, dp⟩ = (linkScan anchors []).1 ∧
      (∀ (pc2 ac2 : List PlacardCard) (sel2 : List SelAnchor) (dp2 : Bool),
        loopnetExtractListings ⟨anchors, pc2, ac2, sel2, dp2⟩ =
          loopnetExtractListings ⟨anchors, pc, ac, sel, dp⟩) ∧
      (loopnetExtractListings ⟨anchors, pc, ac, sel, dp⟩).length =
        (firstDedup (anchors.filterMap DetailAnchor.href)).length := by
  intro anchors pc ac sel dp hne hwf
  have h1 := loopnetExtract_eq_linkScan anchors pc ac sel dp hne hwf
  refine ⟨h1, ?_, ?_⟩
  · intro pc2 ac2 sel2 dp2
    rw [h1, loopnetExtract_eq_linkScan anchors pc2 ac2 sel2 dp2 hne hwf]
  · have hurls := linkScan_urls anchors [] hwf
    rw [h1]
    have hlen : ((linkScan anchors []).1.map Listing.url).length =
        (firstDedup (anchors.filterMap DetailAnchor.href)).length := by
      rw [hurls]; rfl
    simpa using hlen

/-- C4 witness: the secondary-strategy scenario of the claim — zero containers,
two well-formed titled detail anchors — applied through the amended theorem:
two records, invariance under the live-DOM content. -/
theorem C4_witness :
    loopnetExtractListings
      ⟨[⟨some "/a/1", "More details for 123 Main St - Retail for Sale", []⟩,
        ⟨some "/a/2", "More details for 9 Oak Ave - Office for Lease", []⟩],
       [], [], [⟨some "/ghost", some "ghost"⟩], true⟩ =
      (linkScan
        [⟨some "/a/1", "More details for 123 Main St - Retail for Sale", []⟩,
         ⟨some "/a/2", "More details for 9 Oak Ave - Office for Lease", []⟩] []).1 ∧
    (loopnetExtractListings
      ⟨[⟨some "/a/1", "More details for 123 Main St - Retail for Sale", []⟩,
        ⟨some "/a/2", "More details for 9 Oak Ave - Office for Lease", []⟩],
       [], [], [⟨some "/ghost", some "ghost"⟩], true⟩).length = 2 := by
  have h := C4_cascade
    [⟨some "/a/1", "More details for 123 Main St - Retail for Sale", []⟩,
     ⟨some "/a/2", "More details for 9 Oak Ave - Office for Lease", []⟩]
    [] [] [⟨some "/ghost", some "ghost"⟩] true (by decide) (by decide)
  exact ⟨h.1, h.2.2.trans (by decide)⟩

/-- C5 counterexample: a LoopNet detail anchor whose title is exactly the
marker `'More details for '` produces a record whose address field is the
EMPTY string — not a sentinel, not non-empty — falsifying "non-empty string
values for all four fields". -/
theorem C5_counterexample :
    loopnetExtractListings ⟨[⟨some "/x/9", "More details for ", []⟩], [], [], [], true⟩ =
      [⟨"", "Price not available", "Type not available", "/x/9"⟩] := by
  decide

/-- C5 (amended): every record always carries all four fields as strings, and
absent page data yields sentinel strings where the extractor looks for them:
in the LoopNet title scan a price is either the `"Price not available"`
sentinel or genuine text containing a dollar sign; in the LoopNet placard
scan cards whose price selector matches nothing get the `"price not
available"` sentinel; the live-DOM fallback marks price and type with its
fixed "not extracted" sentinels.  Fields parsed from present markup may
however be empty strings, and CommercialMLS uses no sentinels at all — it
drops incomplete cards, so all four fields of its returned records are
non-empty. -/
theorem C5_sentinels :
    (∀ (cards : List GridCard) (processed : List String) (l : Listing),
      l ∈ cmlsGridScan cards processed →
      pyTruthy l.address = true ∧ pyTruthy l.price = true ∧
      pyTruthy l.property_type = true ∧ pyTruthy l.url = true) ∧
    (∀ (anchors : List DetailAnchor) (processed : List String) (l : Listing),
      l ∈ (linkScan anchors processed).1 →
      l.price = "Price not available" ∨ pyHasChar l.price '$' = true) ∧
    (∀ (cards : List PlacardCard) (processed : List String),
      (∀ c ∈ cards, c.price = none) →
      ∀ l ∈ (placardScan cards processed).1, l.price = "price not available") ∧
    (∀ (sels : List SelAnchor) (processed : List String) (l : Listing),
      l ∈ (selScan sels processed).1 →
      l.price = "Price not extracted directly" ∧
      l.property_type = "Type not extracted directly") :=
  ⟨cmlsGridScan_fields, linkScan_price_spec, placardScan_price_sentinel, selScan_constants⟩

/-- C5 witness: the four conjuncts applied to concrete scans — a kept
CommercialMLS record has four non-empty fields; a title-scan record without
an ancestor price carries the price sentinel; a placard card without a price
element carries the lowercase field sentinel; a live-DOM record carries the
"not extracted" sentinels. -/
theorem C5_witness :
    (pyTruthy (Listing.address ⟨"123 Main St", "$500,000", "Retail",
        "https://www.commercialmls.com/property/1"⟩) = true ∧
      pyTruthy (Listing.price ⟨"123 Main St", "$500,000", "Retail",
        "https://www.commercialmls.com/property/1"⟩) = true ∧
      pyTruthy (Listing.property_type ⟨"123 Main St", "$500,000", "Retail",
        "https://www.commercialmls.com/property/1"⟩) = true ∧
      pyTruthy (Listing.url ⟨"123 Main St", "$500,000", "Retail",
        "https://www.commercialmls.com/property/1"⟩) = true) ∧
    (Listing.price ⟨"9 Oak Ave", "Price not available", "Type not available", "/a/2"⟩ =
        "Price not available" ∨
      pyHasChar (Listing.price ⟨"9 Oak Ave", "Price not available", "Type not available", "/a/2"⟩)
        '$' = true) ∧
    Listing.price ⟨"7 Elm St, location not available", "price not available",
        "property_type not available", "/p/3"⟩ = "price not available" ∧
    (Listing.price ⟨"12 Fir Rd", "Price not extracted directly", "Type not extracted directly",
        "/s/4"⟩ = "Price not extracted directly" ∧
      Listing.property_type ⟨"12 Fir Rd", "Price not extracted directly",
        "Type not extracted directly", "/s/4"⟩ = "Type not extracted directly") := by
  refine ⟨?_, ?_, ?_, ?_⟩
  · exact C5_sentinels.1
      [⟨some "Retail", some "123 Main St", some "$500,000", some "#/property/1"⟩] []
      ⟨"123 Main St", "$500,000", "Retail", "https://www.commercialmls.com/property/1"⟩
      (by decide)
  · exact C5_sentinels.2.1 [⟨some "/a/2", "More details for 9 Oak Ave", []⟩] []
      ⟨"9 Oak Ave", "Price not available", "Type not available", "/a/2"⟩ (by decide)
  · exact C5_sentinels.2.2.1 [⟨[some "/p/3"], some "7 Elm St", none, none, none⟩] []
      (by intro c hc; fin_cases hc; rfl)
      ⟨"7 Elm St, location not available", "price not available",
        "property_type not available", "/p/3"⟩ (by decide)
  · exact C5_sentinels.2.2.2 [⟨some "/s/4", some "12 Fir Rd"⟩] []
      ⟨"12 Fir Rd", "Price not extracted directly", "Type not extracted directly", "/s/4"⟩
      (by decide)

/-- C3: the claim is right about the design — and CommercialMLS implements it,
initializing `results = []` before its `try` — but LoopNet's `search` never
initializes `results`, so when an exception is raised before extraction
(e.g. `_setup_driver` failing), the `except` clause catches it, the `finally`
still runs `_close_driver`, and then `return results` itself raises
`UnboundLocalError` instead of returning an empty list. -/
theorem C3_loopnet_unbound_results :
    loopnetSearchRun .setupFails = (.error .unboundLocal, true) ∧
    cmlsSearchRun .setupFails = (.ok [], true) ∧
    (∀ page : LoopnetPage, ∀ postFails : Bool,
      loopnetSearchRun (.completes page postFails) =
        (.ok (loopnetExtractListings page), true)) := by
  refine ⟨rfl, rfl, ?_⟩
  intro page postFails
  cases postFails <;> rfl

/-- C6: on every successful adapter run, whatever combination of optional
price and date filters was supplied, the milestone values passed to the
progress callback are monotonically non-decreasing, all lie in [0, 1], and
the final emission is exactly 1.0 — for both adapters. -/
theorem C6_progress_monotone :
    ∀ hasPrice hasDate : Bool,
      (List.Chain' (· ≤ ·) (loopnetProgressTrace hasPrice hasDate) ∧
        (∀ x ∈ loopnetProgressTrace hasPrice hasDate, 0 ≤ x ∧ x ≤ 1) ∧
        (loopnetProgressTrace hasPrice hasDate).getLast? = some 1) ∧
      (List.Chain' (· ≤ ·) (cmlsProgressTrace hasPrice hasDate) ∧
        (∀ x ∈ cmlsProgressTrace hasPrice hasDate, 0 ≤ x ∧ x ≤ 1) ∧
        (cmlsProgressTrace hasPrice hasDate).getLast? = some 1) := by
  intro hasPrice hasDate
  cases hasPrice with
  | false =>
    cases hasDate with
    | false =>
      have e1 : loopnetProgressTrace false false =
          [0.05, 0.1, 0.2, 0.25, 0.3, 0.35, 0.4, 0.6, 0.65, 0.7, 0.9, 1.0] := rfl
      have e2 : cmlsProgressTrace false false =
          [0.05, 0.1, 0.15, 0.2, 0.25, 0.3, 0.35, 0.4, 0.6, 0.65, 0.7, 0.8, 0.9, 1.0] := rfl
      rw [e1, e2]
      refine ⟨⟨?_, ?_, ?_⟩, ⟨?_, ?_, ?_⟩⟩ <;>
        norm_num [List.chain'_cons, List.chain'_singleton]
    | true =>
      have e1 : loopnetProgressTrace false true =
          [0.05, 0.1, 0.2, 0.25, 0.3, 0.35, 0.4, 0.55, 0.6, 0.65, 0.7, 0.9, 1.0] := rfl
      have e2 : cmlsProgressTrace false true =
          [0.05, 0.1, 0.15, 0.2, 0.25, 0.3, 0.35, 0.4, 0.54, 0.58,
           0.6, 0.65, 0.7, 0.8, 0.9, 1.0] := rfl
      rw [e1, e2]
      refine ⟨⟨?_, ?_, ?_⟩, ⟨?_, ?_, ?_⟩⟩ <;>
        norm_num [List.chain'_cons, List.chain'_singleton]
  | true =>
    cases hasDate with
    | false =>
      have e1 : loopnetProgressTrace true false =
          [0.05, 0.1, 0.2, 0.25, 0.3, 0.35, 0.4, 0.45, 0.5, 0.6, 0.65, 0.7, 0.9, 1.0] := rfl
      have e2 : cmlsProgressTrace true false =
          [0.05, 0.1, 0.15, 0.2, 0.25, 0.3, 0.35, 0.4, 0.45, 0.5, 0.52,
           0.6, 0.65, 0.7, 0.8, 0.9, 1.0] := rfl
      rw [e1, e2]
      refine ⟨⟨?_, ?_, ?_⟩, ⟨?_, ?_, ?_⟩⟩ <;>
        norm_num [List.chain'_cons, List.chain'_singleton]
    | true =>
      have e1 : loopnetProgressTrace true true =
          [0.05, 0.1, 0.2, 0.25, 0.3, 0.35, 0.4, 0.45, 0.5, 0.55,
           0.6, 0.65, 0.7, 0.9, 1.0] := rfl
      have e2 : cmlsProgressTrace true true =
          [0.05, 0.1, 0.15, 0.2, 0.25, 0.3, 0.35, 0.4, 0.45, 0.5, 0.52, 0.54, 0.58,
           0.6, 0.65, 0.7, 0.8, 0.9, 1.0] := rfl
      rw [e1, e2]
      refine ⟨⟨?_, ?_, ?_⟩, ⟨?_, ?_, ?_⟩⟩ <;>
        norm_num [List.chain'_cons, List.chain'_singleton]

/-- C6 witness: the theorem applied with both filters active, its bound-range
conjunct instantiated at the concrete milestone 0.05. -/
theorem C6_witness :
    List.Chain' (· ≤ ·) (loopnetProgressTrace true true) ∧
    ((0 : ℚ) ≤ 0.05 ∧ (0.05 : ℚ) ≤ 1) :=
  ⟨(C6_progress_monotone true true).1.1,
   (C6_progress_monotone true true).1.2.1 0.05 (by norm_num [loopnetProgressTrace])⟩

/-- C7: `smart_wait("stable", ...)` returns `True` only when some element
count `c ≥ min_count` was observed unchanged across a window of consecutive
polls spanning the full quiet period inside the timeout — and it returns
`False` (never raising) whenever no such window occurs, in particular at
exhausted timeout.  For the claim's concrete scenario — a grid growing from
0 to 5 cards, one per poll, then holding steady, with `min_count = 1`,
a 2-second quiet period (20 polls) and a 20-second timeout — the call
returns `True` once 27 polls fit in the timeout (stabilization confirmed at
tick 26) and `False` for every shorter polling budget, never at an
intermediate count. -/
theorem C7_smart_wait_stable :
    (∀ (counts : Nat → Nat) (minCount stableTicks timeoutTicks : Nat),
      smartWaitStable counts minCount stableTicks timeoutTicks = true →
      ∃ s e, s ≤ e ∧ e < timeoutTicks ∧ stableTicks ≤ e - s ∧ minCount ≤ counts s ∧
        ∀ u, s ≤ u → u ≤ e → counts u = counts s) ∧
    smartWaitStable (fun t => min t 5) 1 20 27 = true ∧
    (∀ fuel, fuel ≤ 26 → smartWaitStable (fun t => min t 5) 1 20 fuel = false) := by
  refine ⟨?_, by decide, by decide⟩
  intro counts minCount stableTicks timeoutTicks h
  have hs := stableLoop_sound counts minCount stableTicks timeoutTicks 0 0 none
    (by intro s hs; cases hs) h
  simpa using hs

/-- C7 witness: the soundness conjunct applied to a constant grid of 5 cards
with `min_count = 1`, a 2-poll quiet period and a 10-poll timeout. -/
theorem C7_witness :
    ∃ s e, s ≤ e ∧ e < 10 ∧ 2 ≤ e - s ∧ 1 ≤ (fun _ : Nat => 5) s ∧
      ∀ u, s ≤ u → u ≤ e → (fun _ : Nat => 5) u = (fun _ : Nat => 5) s :=
  C7_smart_wait_stable.1 (fun _ => 5) 1 2 10 (by decide)

/-- C9: `click_element` is total and never propagates: for every attempt
environment (each operation free to raise, including structural/session
errors in overlay removal, waiting, element resolution, scrolling, or any of
the three click strategies), every target kind and every retry budget, the
call returns `.ok` of exactly the boolean "some attempt's strategy cascade
succeeded" — `True` on the first success, `False` after all retries fail,
an exception never escaping the per-attempt handler. -/
theorem C9_click_element_total :
    ∀ (attempts : Nat → ClickAttempt) (isSelector : Bool) (maxRetries : Nat),
      clickElement attempts isSelector maxRetries =
        .ok ((List.range maxRetries).any (fun i => attemptSucceeds attempts isSelector i)) := by
  intro attempts isSelector maxRetries
  unfold clickElement
  rw [clickLoop_spec, List.range_eq_range']

end Crawler
